import Mathlib

/-!
Shallow embedding of the Find Catalog service of this repository
(src/services/findservice.ts) together with the geocode word-triple
validator of src/components/FindsCatalog.tsx.

Modelling choices:
* Each collaborator call (Firebase Storage upload/delete, Firestore
  add/update/delete/get/list) has its outcome prescribed by an `Env`
  record, which also carries the client clock `now` modelling
  `Date.now()` / `new Date()` and the Record Store contents `store`.
* Every service method returns its JavaScript result — `Except Err α`
  for an async method that may reject — paired with the ordered list of
  collaborator calls it attempted (`List Event`).  A collaborator call
  appears in the trace exactly when the source awaits it; the `Env`
  decides whether that attempt succeeded.
* The distinct `Err` constructors correspond one-to-one to the distinct
  `throw new Error(...)` messages of the source; `Err.raised` models
  `FindService.getFind` rethrowing the raw collaborator error.
-/

namespace FindService

/-- The caller-supplied metadata fields of a Find (src/types/finds.ts,
NewFind = Find minus id, imageUrl, createdAt). -/
structure NewFind where
  name : String
  date : String
  location : String
  coordinates : String
  what3words : String
  depth : String
  metalType : String
  condition : String
  notes : String
deriving DecidableEq

/-- A Find as returned to the caller (src/types/finds.ts).  `createdAt`
is optional there (`createdAt?: Date`); dates are modelled as `Nat`
clock readings. -/
structure Find where
  id : String
  name : String
  date : String
  location : String
  coordinates : String
  what3words : String
  depth : String
  metalType : String
  condition : String
  notes : String
  imageUrl : String
  createdAt : Option Nat
deriving DecidableEq

/-- Document data held in the finds collection: the NewFind fields plus
the image URL and (for documents written by addFind) a creation
timestamp. -/
structure DocData where
  name : String
  date : String
  location : String
  coordinates : String
  what3words : String
  depth : String
  metalType : String
  condition : String
  notes : String
  imageUrl : String
  createdAt : Option Nat
deriving DecidableEq

/-- A stored document: Firestore id plus data. -/
structure Doc where
  id : String
  data : DocData
deriving DecidableEq

/-- The argument of uploadImage; only its `name` is read by the source
(for the storage filename). -/
structure ImageFile where
  name : String
deriving DecidableEq

/-- Payload of an `updateDoc` call in updateFind: the spread NewFind
fields, an optional imageUrl entry (present only when the source spreads
`imageUrl && \x7b imageUrl \x7d` with a truthy value), and the client-side
update timestamp. -/
structure UpdateData where
  name : String
  date : String
  location : String
  coordinates : String
  what3words : String
  depth : String
  metalType : String
  condition : String
  notes : String
  imageUrl : Option String
  updatedAt : Nat
deriving DecidableEq

/-- One attempted collaborator call, in source order. -/
inductive Event where
  | uploadBytes (path : String)
  | deleteObject (url : String)
  | addDoc (data : DocData)
  | updateDoc (id : String) (data : UpdateData)
  | deleteDoc (id : String)
  | getDoc (id : String)
  | getDocs
  | logError (msg : String)
deriving DecidableEq

/-- The distinct failures a service method can reject with, one per
distinct `throw` site of the source: `failedUpload` is the message
thrown by uploadImage, `failedLoad` by getFinds, `failedAdd` by addFind,
`failedDelete` by deleteFind, `failedUpdate` by updateFind, and `raised`
is the raw collaborator error rethrown by getFind. -/
inductive Err where
  | failedUpload
  | failedLoad
  | failedAdd
  | failedDelete
  | failedUpdate
  | raised (msg : String)
deriving DecidableEq

/-- Prescribed outcomes of the collaborator calls (fault injection),
plus the client clock and the Record Store contents. -/
structure Env where
  now : Nat
  uploadResult : Except String String
  deleteObjectResult : Except String Unit
  addDocId : Except String String
  updateDocResult : Except String Unit
  deleteDocResult : Except String Unit
  getDocResult : Except String (Option DocData)
  store : List Doc
  listOk : Bool

/-- Placeholder image reference used by addFind when no image file is
supplied. -/
def placeholderUrl : String := "/api/placeholder/300/200"

/-- Host URL checked by deleteImage before any Storage call. -/
def storageHost : String := "https://firebasestorage.googleapis.com"

/-- Model of the JS `imageUrl.startsWith(storageHost)` test. -/
def startsWithUrl (s p : String) : Bool := List.isPrefixOf p.data s.data

/-- Model of `file.name.replace(/[^a-zA-Z0-9.]/g, and an underscore)`. -/
def sanitizeChar (c : Char) : Char :=
  if c.isAlphanum || c = '.' then c else '_'

/-- Sanitized upload filename body. -/
def sanitizeName (s : String) : String := String.map sanitizeChar s

/-- FindService.uploadImage: builds the storage path, awaits
uploadBytes/getDownloadURL (combined outcome `env.uploadResult`); on
collaborator failure it logs and throws its own distinct error. -/
def uploadImage (env : Env) (file : ImageFile) : Except Err String × List Event :=
  let path := "finds/" ++ toString env.now ++ "_" ++ sanitizeName file.name
  match env.uploadResult with
  | Except.ok url => (Except.ok url, [Event.uploadBytes path])
  | Except.error e =>
      (Except.error Err.failedUpload,
        [Event.uploadBytes path, Event.logError ("Error uploading image: " ++ e)])

/-- FindService.deleteImage: returns immediately (no Storage call) when
the URL does not start with the Storage host; otherwise awaits
deleteObject and swallows any error (logging it).  It never rejects. -/
def deleteImage (env : Env) (imageUrl : String) : Except Err Unit × List Event :=
  if startsWithUrl imageUrl storageHost = false then (Except.ok (), [])
  else
    match env.deleteObjectResult with
    | Except.ok _ => (Except.ok (), [Event.deleteObject imageUrl])
    | Except.error e =>
        (Except.ok (),
          [Event.deleteObject imageUrl, Event.logError ("Error deleting image: " ++ e)])

/-- Conversion of a stored document to the Find shape returned by
getFinds and getFind (`id` plus spread data, `createdAt?.toDate()`). -/
def docToFind (d : Doc) : Find :=
  { id := d.id, name := d.data.name, date := d.data.date, location := d.data.location,
    coordinates := d.data.coordinates, what3words := d.data.what3words,
    depth := d.data.depth, metalType := d.data.metalType, condition := d.data.condition,
    notes := d.data.notes, imageUrl := d.data.imageUrl, createdAt := d.data.createdAt }

/-- Sort key of `orderBy createdAt desc` (applied after keeping the
documents that carry the field, as Firestore does). -/
def docKey (d : Doc) : Nat := d.data.createdAt.getD 0

/-- Descending order on documents by creation timestamp. -/
def docLE : Doc → Doc → Prop := fun d e => docKey e ≤ docKey d

instance : DecidableRel docLE := fun d e => Nat.decLe (docKey e) (docKey d)

instance : IsTotal Doc docLE := ⟨fun d e => Nat.le_total (docKey e) (docKey d)⟩

instance : IsTrans Doc docLE := ⟨fun _ _ _ h1 h2 => Nat.le_trans h2 h1⟩

/-- Model of the Record Store evaluating
query(collection, orderBy createdAt desc): the documents carrying the
sort field, ordered by it descending. -/
def orderedDocs (store : List Doc) : List Doc :=
  List.insertionSort docLE (store.filter (fun d => d.data.createdAt.isSome))

/-- FindService.getFinds: awaits getDocs over the ordered query and maps
each document; on collaborator failure logs and throws its own distinct
error. -/
def getFinds (env : Env) : Except Err (List Find) × List Event :=
  if env.listOk then
    (Except.ok ((orderedDocs env.store).map docToFind), [Event.getDocs])
  else
    (Except.error Err.failedLoad, [Event.getDocs, Event.logError "Error getting finds"])

/-- The findData object inserted by addFind: the spread NewFind fields,
the resolved imageUrl and `createdAt := new Date()` read from the client
clock. -/
def mkDocData (f : NewFind) (imageUrl : String) (now : Nat) : DocData :=
  { name := f.name, date := f.date, location := f.location, coordinates := f.coordinates,
    what3words := f.what3words, depth := f.depth, metalType := f.metalType,
    condition := f.condition, notes := f.notes, imageUrl := imageUrl,
    createdAt := some now }

/-- The Find returned by addFind: docRef.id plus the spread findData. -/
def mkFind (id : String) (f : NewFind) (imageUrl : String) (now : Nat) : Find :=
  { id := id, name := f.name, date := f.date, location := f.location,
    coordinates := f.coordinates, what3words := f.what3words, depth := f.depth,
    metalType := f.metalType, condition := f.condition, notes := f.notes,
    imageUrl := imageUrl, createdAt := some now }

/-- Second half of addFind: build findData, await addDoc, and either
return the new Find or (catch-block) log and throw the generic add
error. -/
def insertFind (env : Env) (f : NewFind) (imageUrl : String) (tr : List Event) :
    Except Err Find × List Event :=
  let data := mkDocData f imageUrl env.now
  match env.addDocId with
  | Except.ok id => (Except.ok (mkFind id f imageUrl env.now), tr ++ [Event.addDoc data])
  | Except.error e =>
      (Except.error Err.failedAdd,
        tr ++ [Event.addDoc data, Event.logError ("Error adding find: " ++ e)])

/-- FindService.addFind: placeholder image reference unless a file is
given, in which case uploadImage runs first; any error inside the try
block (upload or insert) is caught and rethrown as the one generic
`Failed to add find` error. -/
def addFind (env : Env) (find : NewFind) (imageFile : Option ImageFile) :
    Except Err Find × List Event :=
  match imageFile with
  | none => insertFind env find placeholderUrl []
  | some f =>
      match uploadImage env f with
      | (Except.ok url, tr) => insertFind env find url tr
      | (Except.error _, tr) =>
          (Except.error Err.failedAdd, tr ++ [Event.logError "Error adding find"])

/-- FindService.deleteFind: awaits deleteImage (which never rejects),
then awaits deleteDoc; only a deleteDoc failure reaches the catch block
and is rethrown as the distinct delete error. -/
def deleteFind (env : Env) (id : String) (imageUrl : String) :
    Except Err Unit × List Event :=
  let tr := (deleteImage env imageUrl).snd
  match env.deleteDocResult with
  | Except.ok _ => (Except.ok (), tr ++ [Event.deleteDoc id])
  | Except.error e =>
      (Except.error Err.failedDelete,
        tr ++ [Event.deleteDoc id, Event.logError ("Error deleting find: " ++ e)])

/-- FindService.getFind: awaits getDoc; returns the Find when the
document exists, null when it does not, and on collaborator failure logs
and rethrows the raw error (`throw error`). -/
def getFind (env : Env) (id : String) : Except Err (Option Find) × List Event :=
  match env.getDocResult with
  | Except.ok (some d) => (Except.ok (some (docToFind { id := id, data := d })), [Event.getDoc id])
  | Except.ok none => (Except.ok none, [Event.getDoc id])
  | Except.error e =>
      (Except.error (Err.raised e),
        [Event.getDoc id, Event.logError ("Error getting find: " ++ e)])

/-- JS truthiness of the optional upload URL in the spread
`imageUrl && \x7b imageUrl \x7d`: undefined and the empty string are
falsy, so only a non-empty URL contributes an imageUrl entry. -/
def truthyOpt (s : Option String) : Option String :=
  match s with
  | some u => if u = "" then none else some u
  | none => none

/-- The object passed to updateDoc by updateFind: spread updates, the
conditional imageUrl entry, and `updatedAt := new Date()`. -/
def mkUpdateData (f : NewFind) (imageUrl : Option String) (now : Nat) : UpdateData :=
  { name := f.name, date := f.date, location := f.location, coordinates := f.coordinates,
    what3words := f.what3words, depth := f.depth, metalType := f.metalType,
    condition := f.condition, notes := f.notes, imageUrl := truthyOpt imageUrl,
    updatedAt := now }

/-- Final step of updateFind: await updateDoc; on collaborator failure
the catch block logs and throws the generic update error. -/
def writeUpdate (env : Env) (id : String) (updates : NewFind) (imageUrl : Option String)
    (tr : List Event) : Except Err Unit × List Event :=
  let data := mkUpdateData updates imageUrl env.now
  match env.updateDocResult with
  | Except.ok _ => (Except.ok (), tr ++ [Event.updateDoc id data])
  | Except.error e =>
      (Except.error Err.failedUpdate,
        tr ++ [Event.updateDoc id data, Event.logError ("Error updating find: " ++ e)])

/-- FindService.updateFind: when a new image file is given, uploadImage
runs first; only after a successful upload is the old Find fetched and —
when it exists and its imageUrl is truthy — its old image deleted
(deleteImage never rejects); then updateDoc runs.  Any error escaping a
step (upload failure, the raw error rethrown by getFind, updateDoc
failure) is caught and rethrown as the one generic update error. -/
def updateFind (env : Env) (id : String) (updates : NewFind)
    (newImageFile : Option ImageFile) : Except Err Unit × List Event :=
  match newImageFile with
  | none => writeUpdate env id updates none []
  | some f =>
      match uploadImage env f with
      | (Except.error _, tr) =>
          (Except.error Err.failedUpdate, tr ++ [Event.logError "Error updating find"])
      | (Except.ok url, tr) =>
          match getFind env id with
          | (Except.error _, tr2) =>
              (Except.error Err.failedUpdate,
                tr ++ tr2 ++ [Event.logError "Error updating find"])
          | (Except.ok oldFind, tr2) =>
              let tr3 :=
                match oldFind with
                | some old =>
                    if old.imageUrl = "" then [] else (deleteImage env old.imageUrl).snd
                | none => []
              writeUpdate env id updates (some url) (tr ++ tr2 ++ tr3)

/-- Event classifiers used to state trace properties. -/
def isUploadEvt : Event → Bool
  | Event.uploadBytes _ => true
  | _ => false

/-- True exactly on deleteObject events. -/
def isDeleteObjEvt : Event → Bool
  | Event.deleteObject _ => true
  | _ => false

/-- True exactly on addDoc events. -/
def isAddDocEvt : Event → Bool
  | Event.addDoc _ => true
  | _ => false

/-- True exactly on updateDoc events. -/
def isUpdateDocEvt : Event → Bool
  | Event.updateDoc _ _ => true
  | _ => false

/-- True on any Record Store write (addDoc or updateDoc). -/
def isRecordWriteEvt (e : Event) : Bool := isAddDocEvt e || isUpdateDocEvt e

/-- True on any Asset Store call (uploadBytes or deleteObject). -/
def isAssetEvt (e : Event) : Bool := isUploadEvt e || isDeleteObjEvt e

/-- Temporal check on a trace: scanning left to right, no deleteObject
call occurs before the first uploadBytes call (true in particular when
the trace contains no deleteObject at all). -/
def noDeleteBeforeUpload : List Event → Bool
  | [] => true
  | e :: tr =>
      if isDeleteObjEvt e then false
      else if isUploadEvt e then true
      else noDeleteBeforeUpload tr

/-- Greedy run of alphabetic characters at the head of the input,
returned together with the rest: the matching of one `[a-zA-Z]+` atom
of the validator regex (maximal munch is exact here because the regex
only follows such an atom with a dot or the end anchor, and `.` is not
alphabetic). -/
def takeAlpha : List Char → List Char × List Char
  | [] => ([], [])
  | c :: cs =>
      if c.isAlpha then
        let p := takeAlpha cs
        (c :: p.fst, p.snd)
      else ([], c :: cs)

/-- Anchored matching of the tail of the validator regex with `k`
further dot-separated tokens expected after the current one: the current
token must be a non-empty alphabetic run, and then either the input ends
(`k = 0`) or a literal dot introduces the next token. -/
def matchTokens : Nat → List Char → Bool
  | 0, cs =>
      match takeAlpha cs with
      | ([], _) => false
      | (_ :: _, []) => true
      | (_ :: _, _ :: _) => false
  | k + 1, cs =>
      match takeAlpha cs with
      | ([], _) => false
      | (_ :: _, []) => false
      | (_ :: _, c :: rest) => if c = '.' then matchTokens k rest else false

/-- validateWhat3Words of src/components/FindsCatalog.tsx: the test of
the anchored regex with three alphabetic tokens separated by two literal
dots. -/
def validateWhat3Words (words : String) : Bool := matchTokens 2 words.data

/-- The characterisation the specification states for the validator,
over the character list of the input. -/
def tokensProp (cs : List Char) : Prop :=
  ∃ a b c : List Char,
    cs = a ++ '.' :: (b ++ '.' :: c) ∧
    a ≠ [] ∧ b ≠ [] ∧ c ≠ [] ∧
    a.all Char.isAlpha = true ∧ b.all Char.isAlpha = true ∧ c.all Char.isAlpha = true

/-- True exactly when the prescribed upload outcome is a success. -/
def isOkResult : Except String String → Bool
  | Except.ok _ => true
  | Except.error _ => false

/-- Sort key of a returned Find, mirroring docKey. -/
def findKeyOf (f : Find) : Nat := f.createdAt.getD 0

/-- A list of Finds ordered newest creation timestamp first. -/
def sortedDesc (l : List Find) : Prop :=
  List.Sorted (fun f g => findKeyOf g ≤ findKeyOf f) l

/-- Example validator inputs, from the specification. -/
def w3wGood : String := "filled.count.soap"

/-- Mixed-case validator input. -/
def w3wCaps : String := "Filled.Count.Soap"

/-- Space-separated validator input. -/
def w3wSpaces : String := "filled count soap"

/-- Two-token validator input. -/
def w3wTwo : String := "filled.count"

/-- Validator input with a digit. -/
def w3wDigit : String := "filled.count.soap1"

/-- Sample metadata used for concrete evaluations. -/
def sampleNew : NewFind :=
  { name := "1942 Silver Quarter", date := "2024-03-15", location := "Thompson Park",
    coordinates := "40.7, -74.0", what3words := "filled.count.soap", depth := "6 inches",
    metalType := "Silver", condition := "Good", notes := "near playground" }

/-- Sample image file. -/
def sampleFile : ImageFile := { name := "photo one.png" }

/-- Sample document identifier assigned by the Record Store. -/
def sampleId : String := "doc-1"

/-- Sample Asset Store download URL. -/
def okUrl : String := "https://firebasestorage.googleapis.com/v0/b/app/o/finds.png"

/-- Sample stored document data whose image lives in the Asset Store. -/
def sampleDocData : DocData := mkDocData sampleNew okUrl 3

/-- Sample collaborator failure message. -/
def failMsg : String := "network down"

/-- Environment in which every collaborator call succeeds. -/
def baseEnv : Env :=
  { now := 7, uploadResult := Except.ok okUrl, deleteObjectResult := Except.ok (),
    addDocId := Except.ok sampleId, updateDocResult := Except.ok (),
    deleteDocResult := Except.ok (), getDocResult := Except.ok (some sampleDocData),
    store := [], listOk := true }

/-- Fault injection: the Asset Store upload fails. -/
def envUploadFail : Env := { baseEnv with uploadResult := Except.error failMsg }

/-- Fault injection: the Record Store insert fails. -/
def envInsertFail : Env := { baseEnv with addDocId := Except.error failMsg }

/-- Fault injection: fetching the existing document fails. -/
def envGetFail : Env := { baseEnv with getDocResult := Except.error failMsg }

/-- Fault injection: the Asset Store delete fails. -/
def envDelObjFail : Env := { baseEnv with deleteObjectResult := Except.error failMsg }

/-- Environment whose client clock reads 42. -/
def env42 : Env := { baseEnv with now := 42 }

/-- An older stored document (creation timestamp 1). -/
def docA : Doc := { id := "a", data := mkDocData sampleNew placeholderUrl 1 }

/-- A newer stored document (creation timestamp 5). -/
def docB : Doc := { id := "b", data := mkDocData sampleNew placeholderUrl 5 }

/-- Environment whose Record Store holds the older document first. -/
def envList : Env := { baseEnv with store := [docA, docB] }

/-- Splitting takeAlpha reassembles its input. -/
theorem takeAlpha_append (cs : List Char) :
    (takeAlpha cs).fst ++ (takeAlpha cs).snd = cs := by
  induction cs with
  | nil => rfl
  | cons c cs ih =>
      cases h : c.isAlpha with
      | true => simp [takeAlpha, h, ih]
      | false => simp [takeAlpha, h]

/-- The consumed run of takeAlpha is alphabetic. -/
theorem takeAlpha_all (cs : List Char) :
    ((takeAlpha cs).fst).all Char.isAlpha = true := by
  induction cs with
  | nil => rfl
  | cons c cs ih =>
      cases h : c.isAlpha with
      | true => simp [takeAlpha, h, ih]
      | false => simp [takeAlpha, h]

/-- takeAlpha consumes exactly an alphabetic run that is followed by a
non-alphabetic character or the end of the input. -/
theorem takeAlpha_of_all (a rest : List Char) (ha : a.all Char.isAlpha = true)
    (hr : ∀ c cs2, rest = c :: cs2 → c.isAlpha = false) :
    takeAlpha (a ++ rest) = (a, rest) := by
  induction a with
  | nil =>
      cases rest with
      | nil => rfl
      | cons c cs2 => simp [takeAlpha, hr c cs2 rfl]
  | cons c a ih =>
      simp only [List.all_cons, Bool.and_eq_true] at ha
      simp [takeAlpha, ha.1, ih ha.2]

/-- The base case of the token matcher: a single final token. -/
theorem matchTokens_zero (cs : List Char) :
    matchTokens 0 cs = true ↔ cs ≠ [] ∧ cs.all Char.isAlpha = true := by
  constructor
  · intro h
    rcases hta : takeAlpha cs with ⟨t, r⟩
    cases t with
    | nil => simp [matchTokens, hta] at h
    | cons x t2 =>
        cases r with
        | nil =>
            have hap := takeAlpha_append cs
            rw [hta] at hap
            simp only [List.append_nil] at hap
            have hall := takeAlpha_all cs
            rw [hta] at hall
            subst hap
            exact ⟨by simp, hall⟩
        | cons y r2 => simp [matchTokens, hta] at h
  · rintro ⟨hne, hall⟩
    have hta := takeAlpha_of_all cs [] hall (by intro c cs2 hh; cases hh)
    simp only [List.append_nil] at hta
    cases cs with
    | nil => exact absurd rfl hne
    | cons x t => simp [matchTokens, hta]

/-- The step case of the token matcher: one token, a literal dot, and
the rest of the pattern. -/
theorem matchTokens_succ (k : Nat) (cs : List Char) :
    matchTokens (k + 1) cs = true ↔
      ∃ a rest, cs = a ++ '.' :: rest ∧ a ≠ [] ∧ a.all Char.isAlpha = true ∧
        matchTokens k rest = true := by
  constructor
  · intro h
    rcases hta : takeAlpha cs with ⟨t, r⟩
    cases t with
    | nil => simp [matchTokens, hta] at h
    | cons x t2 =>
        cases r with
        | nil => simp [matchTokens, hta] at h
        | cons y r2 =>
            by_cases hy : y = '.'
            · subst hy
              have hap := takeAlpha_append cs
              rw [hta] at hap
              have hall := takeAlpha_all cs
              rw [hta] at hall
              refine ⟨x :: t2, r2, hap.symm, by simp, hall, ?_⟩
              simpa [matchTokens, hta] using h
            · simp [matchTokens, hta, hy] at h
  · rintro ⟨a, rest, hcs, hne, hall, hm⟩
    subst hcs
    have hta := takeAlpha_of_all a ('.' :: rest) hall
      (by intro c cs2 hh; injection hh with h1 _; subst h1; decide)
    cases a with
    | nil => exact absurd rfl hne
    | cons x t2 =>
        simp only [List.cons_append] at hta
        simp [matchTokens, hta, hm]

/-- Claim C7: the validator accepts a string exactly when it is three
non-empty alphabetic tokens separated by two literal dots (either case
accepted, digits and other punctuation rejected), and it decides the
example inputs of the specification accordingly. -/
theorem validateWhat3Words_spec :
    (∀ s : String, validateWhat3Words s = true ↔ tokensProp s.data) ∧
    validateWhat3Words w3wGood = true ∧
    validateWhat3Words w3wCaps = true ∧
    validateWhat3Words w3wSpaces = false ∧
    validateWhat3Words w3wTwo = false ∧
    validateWhat3Words w3wDigit = false := by
  refine ⟨?_, by decide, by decide, by decide, by decide, by decide⟩
  intro s
  unfold validateWhat3Words tokensProp
  constructor
  · intro h
    rcases (matchTokens_succ 1 s.data).mp h with ⟨a, rest, hcs, ha, haall, h1⟩
    rcases (matchTokens_succ 0 rest).mp h1 with ⟨b, rest2, hrest, hb, hball, h0⟩
    rcases (matchTokens_zero rest2).mp h0 with ⟨hc, hcall⟩
    exact ⟨a, b, rest2, by rw [hcs, hrest], ha, hb, hc, haall, hball, hcall⟩
  · rintro ⟨a, b, c, hcs, ha, hb, hc, haall, hball, hcall⟩
    rw [hcs]
    exact (matchTokens_succ 1 _).mpr ⟨a, b ++ '.' :: c, rfl, ha, haall,
      (matchTokens_succ 0 _).mpr ⟨b, c, rfl, hb, hball, (matchTokens_zero c).mpr ⟨hc, hcall⟩⟩⟩

/-- Claim C1: in every updateFind run no old-asset deletion happens
before the new upload; a deleteObject call occurs only in runs where a
new image was supplied, the upload outcome was a success, and the upload
call is in the trace; if the new upload fails the update fails and
attempts neither an asset deletion nor a record write; and with no new
image the update performs no Asset Store call at all. -/
theorem updateFind_upload_ordering (env : Env) (id : String) (u : NewFind)
    (file : Option ImageFile) :
    noDeleteBeforeUpload (updateFind env id u file).snd = true ∧
    ((updateFind env id u file).snd.any isDeleteObjEvt = true →
       file.isSome = true ∧ isOkResult env.uploadResult = true ∧
       (updateFind env id u file).snd.any isUploadEvt = true) ∧
    (∀ f e, file = some f → env.uploadResult = Except.error e →
       (updateFind env id u file).fst = Except.error Err.failedUpdate ∧
       (updateFind env id u file).snd.any isDeleteObjEvt = false ∧
       (updateFind env id u file).snd.any isRecordWriteEvt = false) ∧
    (file = none → (updateFind env id u file).snd.any isAssetEvt = false) := by
  cases file with
  | none =>
      refine ⟨?_, ?_, ?_, ?_⟩
      · cases hw : env.updateDocResult <;>
          simp [updateFind, writeUpdate, hw, noDeleteBeforeUpload, isDeleteObjEvt,
            isUploadEvt]
      · intro h
        exfalso
        cases hw : env.updateDocResult <;>
          simp [updateFind, writeUpdate, hw, isDeleteObjEvt] at h
      · intro f e hf
        cases hf
      · intro _
        cases hw : env.updateDocResult <;>
          simp [updateFind, writeUpdate, hw, isAssetEvt, isUploadEvt, isDeleteObjEvt]
  | some f =>
      cases hu : env.uploadResult with
      | error e =>
          refine ⟨?_, ?_, ?_, ?_⟩
          · simp [updateFind, uploadImage, hu, noDeleteBeforeUpload, isDeleteObjEvt,
              isUploadEvt]
          · intro h
            exfalso
            simp [updateFind, uploadImage, hu, isDeleteObjEvt] at h
          · intro f2 e2 _ _
            refine ⟨?_, ?_, ?_⟩ <;>
              simp [updateFind, uploadImage, hu, isDeleteObjEvt, isRecordWriteEvt,
                isAddDocEvt, isUpdateDocEvt]
          · intro h
            cases h
      | ok url =>
          refine ⟨?_, ?_, ?_, ?_⟩
          · cases hg : env.getDocResult with
            | error e2 =>
                simp [updateFind, uploadImage, getFind, hu, hg, noDeleteBeforeUpload,
                  isDeleteObjEvt, isUploadEvt]
            | ok od =>
                cases od with
                | none =>
                    cases hw : env.updateDocResult <;>
                      simp [updateFind, uploadImage, getFind, writeUpdate, hu, hg, hw,
                        noDeleteBeforeUpload, isDeleteObjEvt, isUploadEvt]
                | some d =>
                    by_cases him : d.imageUrl = "" <;>
                      cases hw : env.updateDocResult <;>
                      simp [updateFind, uploadImage, getFind, writeUpdate, docToFind,
                        hu, hg, him, hw, noDeleteBeforeUpload, isDeleteObjEvt, isUploadEvt]
          · intro _
            refine ⟨rfl, by simp [isOkResult, hu], ?_⟩
            cases hg : env.getDocResult with
            | error e2 => simp [updateFind, uploadImage, getFind, hu, hg, isUploadEvt]
            | ok od =>
                cases od with
                | none =>
                    cases hw : env.updateDocResult <;>
                      simp [updateFind, uploadImage, getFind, writeUpdate, hu, hg, hw,
                        isUploadEvt]
                | some d =>
                    by_cases him : d.imageUrl = "" <;>
                      cases hw : env.updateDocResult <;>
                      simp [updateFind, uploadImage, getFind, writeUpdate, docToFind,
                        hu, hg, him, hw, isUploadEvt]
          · intro f2 e2 _ he2
            simp at he2
          · intro h
            cases h

/-- Witness for claim C1 at a concrete upload failure: the update
rejects with the update error and its trace holds no asset deletion and
no record write. -/
theorem updateFind_upload_ordering_w :
    (updateFind envUploadFail sampleId sampleNew (some sampleFile)).fst =
      Except.error Err.failedUpdate ∧
    (updateFind envUploadFail sampleId sampleNew (some sampleFile)).snd.any
      isDeleteObjEvt = false ∧
    (updateFind envUploadFail sampleId sampleNew (some sampleFile)).snd.any
      isRecordWriteEvt = false :=
  (updateFind_upload_ordering envUploadFail sampleId sampleNew (some sampleFile)).2.2.1
    sampleFile failMsg rfl rfl

/-- Claim C2, counterexample: when the upload fails, addFind rejects
with the one generic add error — the same kind a Record Store insert
failure produces — and not with the distinct upload-failure kind. -/
theorem addFind_upload_error_generic :
    (addFind envUploadFail sampleNew (some sampleFile)).fst = Except.error Err.failedAdd ∧
    Err.failedAdd ≠ Err.failedUpload ∧
    (addFind envInsertFail sampleNew none).fst = Except.error Err.failedAdd := by
  refine ⟨rfl, by decide, rfl⟩

/-- Claim C2, amended: when the upload fails, addFind fails (with the
generic add error) and no record insert is attempted. -/
theorem addFind_upload_fail_no_insert (env : Env) (nf : NewFind) (f : ImageFile)
    (e : String) (he : env.uploadResult = Except.error e) :
    (addFind env nf (some f)).fst = Except.error Err.failedAdd ∧
    (addFind env nf (some f)).snd.any isAddDocEvt = false := by
  constructor <;> simp [addFind, uploadImage, he, isAddDocEvt]

/-- Witness for claim C2 (amended) at a concrete upload failure. -/
theorem addFind_upload_fail_no_insert_w :
    (addFind envUploadFail sampleNew (some sampleFile)).fst = Except.error Err.failedAdd ∧
    (addFind envUploadFail sampleNew (some sampleFile)).snd.any isAddDocEvt = false :=
  addFind_upload_fail_no_insert envUploadFail sampleNew sampleFile failMsg rfl

/-- Claim C3: deleteFind always attempts the record deletion, whatever
the asset-deletion outcome, and its result is decided solely by the
record-deletion outcome — the distinct delete error exactly when that
fails. -/
theorem deleteFind_record_always (env : Env) (id imageUrl : String) :
    Event.deleteDoc id ∈ (deleteFind env id imageUrl).snd ∧
    (deleteFind env id imageUrl).fst =
      (match env.deleteDocResult with
        | Except.ok _ => Except.ok ()
        | Except.error _ => Except.error Err.failedDelete) := by
  cases hd : env.deleteDocResult <;> constructor <;> simp [deleteFind, hd]

/-- Claim C4, counterexample: with the client clock at 42, addFind
itself puts createdAt = 42 into the insert payload and into the returned
Find — the timestamp is computed on the client, not assigned by the
Record Store. -/
theorem addFind_timestamp_client_cx :
    Event.addDoc (mkDocData sampleNew placeholderUrl 42) ∈
      (addFind env42 sampleNew none).snd ∧
    (mkDocData sampleNew placeholderUrl 42).createdAt = some 42 ∧
    (addFind env42 sampleNew none).fst =
      Except.ok (mkFind sampleId sampleNew placeholderUrl 42) := by
  refine ⟨by decide, rfl, rfl⟩

/-- Claim C4, amended: every record addFind inserts carries a creation
timestamp equal to the client clock reading (new Date()), supplied by
the caller side of the insert. -/
theorem addFind_timestamp_client (env : Env) (nf : NewFind) (file : Option ImageFile)
    (d : DocData) (h : Event.addDoc d ∈ (addFind env nf file).snd) :
    d.createdAt = some env.now := by
  cases file with
  | none =>
      cases ha : env.addDocId <;> simp [addFind, insertFind, ha] at h <;>
        simp [h, mkDocData]
  | some f =>
      cases hu : env.uploadResult with
      | error e => simp [addFind, uploadImage, hu] at h
      | ok url =>
          cases ha : env.addDocId <;>
            simp [addFind, uploadImage, insertFind, hu, ha] at h <;>
            simp [h, mkDocData]

/-- Witness for claim C4 (amended) at a concrete insert. -/
theorem addFind_timestamp_client_w :
    (mkDocData sampleNew placeholderUrl baseEnv.now).createdAt = some baseEnv.now :=
  addFind_timestamp_client baseEnv sampleNew none
    (mkDocData sampleNew placeholderUrl baseEnv.now) (by decide)

/-- Claim C5: addFind without an image yields a Find whose image
reference is the placeholder sentinel and whose identifier is the one
the Record Store assigned. -/
theorem addFind_no_image_placeholder (env : Env) (nf : NewFind) (id : String)
    (h : env.addDocId = Except.ok id) :
    (addFind env nf none).fst = Except.ok (mkFind id nf placeholderUrl env.now) ∧
    (mkFind id nf placeholderUrl env.now).imageUrl = placeholderUrl ∧
    (mkFind id nf placeholderUrl env.now).id = id := by
  refine ⟨?_, rfl, rfl⟩
  simp [addFind, insertFind, h]

/-- Witness for claim C5 at a concrete successful insert. -/
theorem addFind_no_image_placeholder_w :
    (addFind baseEnv sampleNew none).fst =
      Except.ok (mkFind sampleId sampleNew placeholderUrl baseEnv.now) ∧
    (mkFind sampleId sampleNew placeholderUrl baseEnv.now).imageUrl = placeholderUrl ∧
    (mkFind sampleId sampleNew placeholderUrl baseEnv.now).id = sampleId :=
  addFind_no_image_placeholder baseEnv sampleNew sampleId rfl

/-- Claim C6: updateFind without a new image sends an update payload
with no image-reference entry at all while carrying every supplied
metadata field. -/
theorem updateFind_no_image_frame (env : Env) (id : String) (nf : NewFind) :
    (updateFind env id nf none).snd.head? =
      some (Event.updateDoc id (mkUpdateData nf none env.now)) ∧
    (mkUpdateData nf none env.now).imageUrl = none ∧
    (mkUpdateData nf none env.now).name = nf.name ∧
    (mkUpdateData nf none env.now).date = nf.date ∧
    (mkUpdateData nf none env.now).location = nf.location ∧
    (mkUpdateData nf none env.now).coordinates = nf.coordinates ∧
    (mkUpdateData nf none env.now).what3words = nf.what3words ∧
    (mkUpdateData nf none env.now).depth = nf.depth ∧
    (mkUpdateData nf none env.now).metalType = nf.metalType ∧
    (mkUpdateData nf none env.now).condition = nf.condition ∧
    (mkUpdateData nf none env.now).notes = nf.notes := by
  refine ⟨?_, rfl, rfl, rfl, rfl, rfl, rfl, rfl, rfl, rfl, rfl⟩
  cases hw : env.updateDocResult <;> simp [updateFind, writeUpdate, hw]

/-- Claim C8: for any Record Store contents, getFinds returns the
documents carrying a creation timestamp as a descending-ordered
permutation, and rejects with the distinct load error when the store
cannot be read. -/
theorem getFinds_sorted (env : Env) :
    (env.listOk = true →
       (getFinds env).fst = Except.ok ((orderedDocs env.store).map docToFind) ∧
       List.Perm (orderedDocs env.store)
         (env.store.filter (fun d => d.data.createdAt.isSome)) ∧
       sortedDesc ((orderedDocs env.store).map docToFind)) ∧
    (env.listOk = false → (getFinds env).fst = Except.error Err.failedLoad) := by
  constructor
  · intro h
    refine ⟨by simp [getFinds, h], List.perm_insertionSort docLE _, ?_⟩
    have hs := List.sorted_insertionSort docLE
      (env.store.filter (fun d => d.data.createdAt.isSome))
    unfold sortedDesc
    exact List.Pairwise.map docToFind (fun a b hab => hab) hs
  · intro h
    simp [getFinds, h]

/-- Witness for claim C8 on a store inserted oldest first: the result
is the sorted permutation, concretely newest first. -/
theorem getFinds_sorted_w :
    ((getFinds envList).fst = Except.ok ((orderedDocs envList.store).map docToFind) ∧
     List.Perm (orderedDocs envList.store)
       (envList.store.filter (fun d => d.data.createdAt.isSome)) ∧
     sortedDesc ((orderedDocs envList.store).map docToFind)) ∧
    (getFinds envList).fst = Except.ok [docToFind docB, docToFind docA] :=
  ⟨(getFinds_sorted envList).1 rfl, rfl⟩

/-- Claim C9, counterexample: with the upload succeeding and the fetch
of the existing record failing, updateFind rejects with the update error
and never attempts the metadata write — the fetch failure is not
swallowed. -/
theorem updateFind_fetch_error_not_swallowed :
    (updateFind envGetFail sampleId sampleNew (some sampleFile)).fst =
      Except.error Err.failedUpdate ∧
    (updateFind envGetFail sampleId sampleNew (some sampleFile)).snd.any
      isUpdateDocEvt = false := by
  refine ⟨rfl, by decide⟩

/-- Claim C9, amended: once the new upload and the fetch of the existing
record succeed, the update result is decided solely by the metadata
write — an old-asset deletion failure is swallowed and the metadata
write is always attempted. -/
theorem updateFind_cleanup_best_effort (env : Env) (id : String) (nf : NewFind)
    (f : ImageFile) (url : String) (od : Option DocData)
    (hu : env.uploadResult = Except.ok url) (hg : env.getDocResult = Except.ok od) :
    (updateFind env id nf (some f)).fst =
      (match env.updateDocResult with
        | Except.ok _ => Except.ok ()
        | Except.error _ => Except.error Err.failedUpdate) ∧
    (updateFind env id nf (some f)).snd.any isUpdateDocEvt = true := by
  cases od with
  | none =>
      cases hw : env.updateDocResult <;>
        constructor <;>
        simp [updateFind, uploadImage, getFind, writeUpdate, hu, hg, hw, isUpdateDocEvt]
  | some d =>
      by_cases him : d.imageUrl = "" <;>
        cases hw : env.updateDocResult <;>
        constructor <;>
        simp [updateFind, uploadImage, getFind, writeUpdate, docToFind, hu, hg, him, hw,
          isUpdateDocEvt]

/-- Witness for claim C9 (amended) at a concrete old-asset deletion
failure: the deletion is attempted, swallowed, and the update still
succeeds with the metadata write in the trace. -/
theorem updateFind_cleanup_best_effort_w :
    (updateFind envDelObjFail sampleId sampleNew (some sampleFile)).fst = Except.ok () ∧
    (updateFind envDelObjFail sampleId sampleNew (some sampleFile)).snd.any
      isUpdateDocEvt = true ∧
    (updateFind envDelObjFail sampleId sampleNew (some sampleFile)).snd.any
      isDeleteObjEvt = true :=
  ⟨(updateFind_cleanup_best_effort envDelObjFail sampleId sampleNew sampleFile okUrl
      (some sampleDocData) rfl rfl).1,
   (updateFind_cleanup_best_effort envDelObjFail sampleId sampleNew sampleFile okUrl
      (some sampleDocData) rfl rfl).2,
   by decide⟩

/-- Every deleteObject call issued inside deleteImage targets a URL on
the Asset Store host. -/
theorem deleteImage_events (env : Env) (url w : String)
    (h : Event.deleteObject w ∈ (deleteImage env url).snd) :
    startsWithUrl w storageHost = true := by
  cases hs : startsWithUrl url storageHost with
  | false => simp [deleteImage, hs] at h
  | true =>
      cases hd : env.deleteObjectResult with
      | ok u =>
          simp [deleteImage, hs, hd] at h
          rw [h]
          exact hs
      | error e =>
          simp [deleteImage, hs, hd] at h
          rw [h]
          exact hs

/-- Claim C10: deleteImage never rejects, performs no Asset Store call
at all on a URL that does not start with the Asset Store host, and every
deleteObject call issued by deleteFind or updateFind targets a URL on
that host — so the placeholder sentinel is never deleted. -/
theorem deleteImage_guard (env : Env) (url id : String) (nf : NewFind)
    (file : Option ImageFile) :
    (deleteImage env url).fst = Except.ok () ∧
    (startsWithUrl url storageHost = false → (deleteImage env url).snd = []) ∧
    (∀ w, Event.deleteObject w ∈ (deleteFind env id url).snd →
       startsWithUrl w storageHost = true) ∧
    (∀ w, Event.deleteObject w ∈ (updateFind env id nf file).snd →
       startsWithUrl w storageHost = true) := by
  refine ⟨?_, ?_, ?_, ?_⟩
  · cases hs : startsWithUrl url storageHost <;>
      cases hd : env.deleteObjectResult <;> simp [deleteImage, hs, hd]
  · intro hs
    simp [deleteImage, hs]
  · intro w hw
    cases hd : env.deleteDocResult <;> simp [deleteFind, hd] at hw <;>
      exact deleteImage_events env url w hw
  · intro w hw
    cases file with
    | none =>
        cases hup : env.updateDocResult <;>
          simp [updateFind, writeUpdate, hup] at hw
    | some f =>
        cases hu : env.uploadResult with
        | error e => simp [updateFind, uploadImage, hu] at hw
        | ok u =>
            cases hg : env.getDocResult with
            | error e => simp [updateFind, uploadImage, getFind, hu, hg] at hw
            | ok od =>
                cases od with
                | none =>
                    cases hup : env.updateDocResult <;>
                      simp [updateFind, uploadImage, getFind, writeUpdate, hu, hg,
                        hup] at hw
                | some d =>
                    by_cases him : d.imageUrl = ""
                    · cases hup : env.updateDocResult <;>
                        simp [updateFind, uploadImage, getFind, writeUpdate, docToFind,
                          hu, hg, him, hup] at hw
                    · cases hup : env.updateDocResult <;>
                        simp [updateFind, uploadImage, getFind, writeUpdate, docToFind,
                          hu, hg, him, hup] at hw <;>
                        exact deleteImage_events env d.imageUrl w hw

/-- Witness for claim C10 at the placeholder sentinel: deleteImage
resolves and performs no Asset Store call at all. -/
theorem deleteImage_guard_w :
    (deleteImage baseEnv placeholderUrl).fst = Except.ok () ∧
    (deleteImage baseEnv placeholderUrl).snd = [] :=
  ⟨(deleteImage_guard baseEnv placeholderUrl sampleId sampleNew none).1,
   (deleteImage_guard baseEnv placeholderUrl sampleId sampleNew none).2.1 (by decide)⟩

end FindService
